import Mathlib

/-!
Verification development for the OpenAlgo restart API
(`openalgo-restart-api.py`): a shallow embedding of the job registry,
job runner, instance-name sanitization, auth classification, readiness
window evaluation, and session invalidation, together with theorems
settling the specification claims about those components.

Python strings are modelled as `List Char` where character-level
processing matters (output capture, ANSI stripping) and as Lean
`String` elsewhere; `str.isdigit` is modelled over ASCII digits.
-/

namespace OpenAlgo

open scoped List

/-! ### Python string helpers -/

/-- Whitespace characters removed by Python's `str.strip()` (ASCII subset). -/
def isPySpace (c : Char) : Bool :=
  c = ' ' || c = '\t' || c = '\n' || c = '\r' || c = '\x0b' || c = '\x0c'

/-- Python `str.strip()`: drop leading and trailing whitespace. -/
def pyStrip (l : List Char) : List Char :=
  ((l.dropWhile isPySpace).reverse.dropWhile isPySpace).reverse

/-! ### ANSI escape stripping: the source's `_strip_ansi`, whose regex is
ESC, a literal open bracket, zero or more bytes 0x30 to 0x3F, zero or more
bytes 0x20 to 0x2F, then one byte 0x40 to 0x7E. -/

/-- Parameter bytes (0x30 to 0x3F) of a CSI sequence. -/
def isParamByte (c : Char) : Bool := 0x30 ≤ c.toNat && c.toNat ≤ 0x3F

/-- Intermediate bytes (0x20 to 0x2F) of a CSI sequence. -/
def isInterByte (c : Char) : Bool := 0x20 ≤ c.toNat && c.toNat ≤ 0x2F

/-- Final bytes (0x40 to 0x7E) of a CSI sequence. -/
def isFinalByte (c : Char) : Bool := 0x40 ≤ c.toNat && c.toNat ≤ 0x7E

/-- Consume the body of a CSI sequence after `ESC [`: zero or more
parameter bytes, zero or more intermediate bytes, then one final byte.
The three character classes are pairwise disjoint, so greedy matching is
deterministic and this models the regex exactly. -/
def consumeAnsiBody (l : List Char) : Option (List Char) :=
  match (l.dropWhile isParamByte).dropWhile isInterByte with
  | [] => none
  | f :: rest => if isFinalByte f then some rest else none

/-- `_strip_ansi`: remove every match of the CSI regex from the text,
scanning left to right as `re.sub` does. -/
def stripAnsi : List Char → List Char
  | [] => []
  | '\x1b' :: '[' :: rest2 =>
    match hc : consumeAnsiBody rest2 with
    | some rest3 => stripAnsi rest3
    | none => '\x1b' :: stripAnsi ('[' :: rest2)
  | c :: rest => c :: stripAnsi rest
termination_by l => l.length
decreasing_by
  · unfold consumeAnsiBody at hc
    have h2 : ((rest2.dropWhile isParamByte).dropWhile isInterByte).length ≤
        rest2.length :=
      Nat.le_trans (List.dropWhile_sublist _).length_le
        (List.dropWhile_sublist _).length_le
    cases hm : (rest2.dropWhile isParamByte).dropWhile isInterByte with
    | nil => rw [hm] at hc; simp at hc
    | cons f rest =>
      rw [hm] at hc
      by_cases hf : isFinalByte f
      · simp [hf] at hc
        subst hc
        rw [hm] at h2
        simp at h2
        simp
        omega
      · simp [hf] at hc
  · simp
  · simp

/-! ### Job records and the in-memory registry (`JOBS` dict)

The `JOBS` dict is modelled as a list of `Job` records in insertion
order; Python dict keys are unique, which appears as a no-duplicate-ids
hypothesis where needed.  `time.time()` creation stamps are modelled as
naturals, ISO timestamp strings as opaque `String` parameters. -/

structure Job where
  id : String
  action : String
  paramsScope : Option String
  paramsInstance : Option String
  status : String
  created_at : String
  created_ts : Nat
  started_at : Option String
  finished_at : Option String
  exit_code : Option Int
  output : List Char
  error : Option String
deriving Repr, DecidableEq

/-- `JOB_LIMIT = 50`. -/
def JOB_LIMIT : Nat := 50

/-- `JOBS.get(job_id)` under the lock (the returned snapshot). -/
def lookupJob (reg : List Job) (jobId : String) : Option Job :=
  reg.find? (fun j => j.id == jobId)

/-- `self.JOBS[job_id] = job`: dict assignment overwrites an existing
entry with the same key, otherwise appends. -/
def dictInsert (reg : List Job) (j : Job) : List Job :=
  if reg.any (fun e => e.id == j.id) then
    reg.map (fun e => if e.id == j.id then j else e)
  else reg ++ [j]

/-- Comparison key of `sorted(self.JOBS.items(), key=... created_ts)`. -/
def jobLE (a b : Job) : Prop := a.created_ts ≤ b.created_ts

instance : DecidableRel jobLE := fun a b => Nat.decLe a.created_ts b.created_ts

instance : IsTotal Job jobLE := ⟨fun a b => Nat.le_total a.created_ts b.created_ts⟩

instance : IsTrans Job jobLE := ⟨fun _ _ _ h1 h2 => Nat.le_trans h1 h2⟩

/-- `_prune_jobs_locked`: when the registry exceeds `JOB_LIMIT`, sort by
creation stamp and pop every key except the newest `JOB_LIMIT` ones. -/
def pruneJobsLocked (reg : List Job) : List Job :=
  if reg.length ≤ JOB_LIMIT then reg
  else
    let ordered := List.insertionSort jobLE reg
    let evicted := ordered.take (reg.length - JOB_LIMIT)
    reg.filter (fun j => !(evicted.any (fun e => e.id == j.id)))

/-- The fresh job dict built by `_create_job` (status starts `queued`). -/
def mkJob (jobId action : String) (scope inst : Option String)
    (createdAt : String) (ts : Nat) : Job :=
  { id := jobId, action := action, paramsScope := scope,
    paramsInstance := inst, status := "queued", created_at := createdAt,
    created_ts := ts, started_at := none, finished_at := none,
    exit_code := none, output := [], error := none }

/-- `_create_job`: insert the fresh record under the lock, then prune.
The generated `uuid4().hex[:12]` identifier is passed in as `jobId`. -/
def createJob (reg : List Job) (jobId action : String)
    (scope inst : Option String) (createdAt : String) (ts : Nat) :
    String × List Job :=
  (jobId, pruneJobsLocked (dictInsert reg (mkJob jobId action scope inst createdAt ts)))

/-- A registry after a sequence of `_create_job` calls starting from the
empty dict; each element of `seq` carries one call's generated id and
field values. -/
def applyCreations (seq : List Job) : List Job :=
  seq.foldl (fun r j => pruneJobsLocked (dictInsert r j)) []

/-- The keyword arguments of one `_update_job` call: `none` means the
field is not among the updates. -/
structure JobUpdate where
  status : Option String := none
  started_at : Option (Option String) := none
  finished_at : Option (Option String) := none
  exit_code : Option (Option Int) := none
  output : Option (List Char) := none
  error : Option (Option String) := none

/-- `job.update(updates)`: overwrite exactly the supplied fields. -/
def applyUpdate (j : Job) (u : JobUpdate) : Job :=
  { j with
    status := u.status.getD j.status
    started_at := u.started_at.getD j.started_at
    finished_at := u.finished_at.getD j.finished_at
    exit_code := u.exit_code.getD j.exit_code
    output := u.output.getD j.output
    error := u.error.getD j.error }

/-- `_update_job`: under the lock, apply the partial update to the record
with the given id; unknown ids leave the registry unchanged (the source
returns `None` in that case). -/
def updateJob (reg : List Job) (jobId : String) (u : JobUpdate) : List Job :=
  reg.map (fun e => if e.id == jobId then applyUpdate e u else e)

/-! ### Job runner (`_run_script_job`) -/

/-- The three ways `subprocess.run` can come back: normal completion,
`TimeoutExpired` (with whatever partial output was captured), or any
other exception. -/
inductive RunOutcome where
  | completed (returncode : Int) (stdout stderr : List Char)
  | timedOut (stdout stderr : List Char)
  | failed (message : String)

/-- `(result.stdout or "") + ("\n" + result.stderr if result.stderr else "")`. -/
def combineOutput (stdout stderr : List Char) : List Char :=
  stdout ++ (if stderr.isEmpty then [] else '\n' :: stderr)

/-- The output cap checked by `len(output) > 200000`. -/
def OUTPUT_CAP : Nat := 200000

/-- The marker appended to truncated output. -/
def TRUNCATION_MARKER : List Char := "\n...\n(Output truncated)".toList

/-- Output processing on the normal-completion path: strip ANSI, then
truncate with marker when the stripped text exceeds `OUTPUT_CAP`. -/
def capturedOutput (stdout stderr : List Char) : List Char :=
  let output := stripAnsi (combineOutput stdout stderr)
  if OUTPUT_CAP < output.length then output.take OUTPUT_CAP ++ TRUNCATION_MARKER
  else output

/-- The first `_update_job` of `_run_script_job` (status running). -/
def runningUpdate (startedAt : String) : JobUpdate :=
  { status := some "running", started_at := some (some startedAt) }

/-- The terminal status `_run_script_job` writes for each outcome. -/
def terminalStatusOf : RunOutcome → String
  | .completed rc _ _ => if rc == 0 then "success" else "error"
  | .timedOut _ _ => "timeout"
  | .failed _ => "error"

/-- `_run_script_job`: mark the job running, invoke the command, and
write the terminal result back into the registry. -/
def runScriptJob (reg : List Job) (jobId : String) (outcome : RunOutcome)
    (startedAt finishedAt : String) : List Job :=
  let reg1 := updateJob reg jobId (runningUpdate startedAt)
  match outcome with
  | .completed rc out err =>
    updateJob reg1 jobId
      { status := some (if rc == 0 then "success" else "error")
        exit_code := some (some rc)
        output := some (pyStrip (capturedOutput out err))
        finished_at := some (some finishedAt) }
  | .timedOut out err =>
    updateJob reg1 jobId
      { status := some "timeout"
        exit_code := some none
        output := some (pyStrip (stripAnsi (combineOutput out err)))
        error := some (some "Command timed out")
        finished_at := some (some finishedAt) }
  | .failed msg =>
    updateJob reg1 jobId
      { status := some "error"
        exit_code := some none
        error := some (some msg)
        finished_at := some (some finishedAt) }

/-- The terminal job statuses. -/
def isTerminalStatus (s : String) : Bool :=
  s == "success" || s == "error" || s == "timeout"

/-! ### Instance identity (`_sanitize_instance` and the input channels) -/

/-- Python `str.isdigit` restricted to ASCII: non-empty and all digits. -/
def pyIsDigit (l : List Char) : Bool := !l.isEmpty && l.all Char.isDigit

/-- `_sanitize_instance` over the characters of the candidate: falsy
(empty) strings are rejected; the value is whitespace-stripped and
accepted exactly when it starts with `openalgo` (its first 8 characters)
followed by a non-empty digit string. -/
def sanitizeInstanceChars (l : List Char) : Option (List Char) :=
  if l.isEmpty then none
  else
    let t := pyStrip l
    if t.take 8 = "openalgo".toList && pyIsDigit (t.drop 8) then some t
    else none

/-- `_sanitize_instance`: `None` or a falsy string is rejected, otherwise
the trimmed value is checked against the naming convention. -/
def sanitizeInstance (inst : Option String) : Option String :=
  match inst with
  | none => none
  | some s => (sanitizeInstanceChars s.toList).map List.asString

/-- `_resolve_monitor_instance`: header value first, then the `instance`
query parameter, then the host-symlink mapping (whose target basename is
itself sanitized); every channel goes through `_sanitize_instance`. -/
def resolveMonitorInstance (header queryParam hostTargetBase : Option String) :
    Option String :=
  match sanitizeInstance header with
  | some i => some i
  | none =>
    match sanitizeInstance queryParam with
    | some i => some i
    | none => sanitizeInstance hostTargetBase

/-- The `do_POST` dispatch for `/api/restart-instance` (and the stop,
start and invalidate-session variants): `data.get('instance', '')` is
forwarded to the handler whenever it is non-empty, with no call to
`_sanitize_instance`. -/
def apiRestartInstanceBody (bodyInstance : Option String) : Option String :=
  let inst := bodyInstance.getD ""
  if inst = "" then none else some inst

/-- `_service_name`: if the instance's env file has a non-empty `DOMAIN`,
the unit name is `openalgo-` plus the domain with dots replaced by
dashes; otherwise the instance name itself.  The parsed `DOMAIN` value is
passed in as `domain`. -/
def serviceName (inst : String) (domain : Option String) : String :=
  match domain with
  | some d => if d = "" then inst else "openalgo-" ++ (d.replace "." "-")
  | none => inst

/-- The shell command interpolated by `handle_restart_instance`. -/
def restartCommand (inst : String) (domain : Option String) : String :=
  "sudo systemctl restart " ++ serviceName inst domain

/-- The per-instance database directory interpolated by
`_get_db_file_with_table` and `_get_auth_db_file`. -/
def instanceDbDir (inst : String) : String :=
  "/var/python/openalgo-flask/" ++ inst ++ "/db"

/-! ### Auth state reader (`_read_auth_status`) -/

/-- One row of the `auth` table. -/
structure AuthRow where
  is_revoked : Int
  auth : Option String
  feed_token : Option String
  broker : Option String
  name : Option String
deriving Repr, DecidableEq

/-- The observable shapes of an instance's auth database as seen by
`_read_auth_status`: no usable database file, an exception while opening
or reading, a failed row query, an empty table, or one row. -/
inductive AuthDb where
  | noDbFile
  | accessError (message : String)
  | queryFailed
  | noRow
  | row (r : AuthRow)

/-- A field is blank when it is `NULL` or whitespace-only
(`v is None or str(v).strip() == ""`). -/
def blankField (v : Option String) : Bool :=
  match v with
  | none => true
  | some s => (pyStrip s.toList).isEmpty

/-- `_read_auth_status`: returns
`(authenticated, status message, broker, name)` and never raises; every
failure shape degrades to a not-authenticated result with a message. -/
def readAuthStatus : AuthDb → Bool × String × Option String × Option String
  | .noDbFile => (false, "Not Authenticated - User not Setup", none, none)
  | .accessError m => (false, "Auth check failed: " ++ m, none, none)
  | .queryFailed => (false, "Not Authenticated - User not Setup", none, none)
  | .noRow => (false, "Not Authenticated - User not Setup", none, none)
  | .row r =>
    let auth_blank := blankField r.auth
    let feed_blank := blankField r.feed_token
    let broker_blank := blankField r.broker
    let name_blank := blankField r.name
    if name_blank then
      (false, "Not Authenticated - User not Setup", r.broker, r.name)
    else if r.is_revoked == 1 && !(auth_blank || feed_blank || broker_blank) then
      (false, "Not Authenticated - Invalid Token", r.broker, r.name)
    else if r.is_revoked == 1 then
      (false, "Not Authenticated - User Token Revoked", r.broker, r.name)
    else if broker_blank then
      (false, "Not Authenticated - Invalid Token", r.broker, r.name)
    else if auth_blank || feed_blank then
      (false, "Not Authenticated - Invalid Token", r.broker, r.name)
    else (true, "User Authenticated", r.broker, r.name)

/-- The failure shapes of `AuthDb` (everything except a fetched row). -/
def authDbFailure : AuthDb → Bool
  | .noDbFile => true
  | .accessError _ => true
  | .queryFailed => true
  | .noRow => true
  | .row _ => false

/-- The four classifications produced by the reader. -/
inductive AuthClass where
  | userNotSetup
  | invalidToken
  | tokenRevoked
  | authenticated
deriving Repr, DecidableEq

/-- Map the reader's `(authenticated, message)` pair to its
classification. -/
def messageClass (authenticated : Bool) (msg : String) : AuthClass :=
  if authenticated then .authenticated
  else if msg == "Not Authenticated - User not Setup" then .userNotSetup
  else if msg == "Not Authenticated - User Token Revoked" then .tokenRevoked
  else .invalidToken

/-- The classification priority order exactly as the specification words
it (rule list of spec section 4.3), over the revoked flag and the four
blankness facts.  Stated from the spec, for comparison with
`readAuthStatus`. -/
def specAuthClassify (revoked authB feedB brokerB nameB : Bool) : AuthClass :=
  if nameB then .userNotSetup
  else if revoked && !authB && !feedB && !brokerB then .invalidToken
  else if revoked then .tokenRevoked
  else if brokerB then .invalidToken
  else if authB || feedB then .invalidToken
  else .authenticated

/-! ### Readiness window (`_ist_window_start`, `_get_master_contract_status`)

Naive IST datetimes are modelled as seconds (an integer); `replace(hour=3,
minute=0, second=0, microsecond=0)` is the day floor plus the cutover. -/

/-- Midnight of the civil day containing `t` (seconds). -/
def dayStartSec (t : Int) : Int := 86400 * (t / 86400)

/-- The 03:00 IST cutover, in seconds after midnight. -/
def CUTOVER_SEC : Int := 10800

/-- `_ist_window_start`: today at the cutover hour, rolled back one day
when `now` is before it. -/
def istWindowStart (nowIst : Int) : Int :=
  let ws := dayStartSec nowIst + CUTOVER_SEC
  if nowIst < ws then ws - 86400 else ws

/-- The window membership test of the readiness scan:
`window_start <= row_dt < window_end`, where an unparseable stored
timestamp (`none`) is skipped. -/
def rowInWindow (windowStart windowEnd : Int) (rowDt : Option Int) : Bool :=
  match rowDt with
  | none => false
  | some dt => decide (windowStart ≤ dt ∧ dt < windowEnd)

/-- The readiness decision of `_get_master_contract_status`: scan the
fetched successfully-completed rows (most recent first, parsed stamps,
`none` for parse failures) for the first one inside the current window.
The window end is `window_start + timedelta(days=1)`. -/
def masterContractReady (nowIst : Int) (readyRows : List (Option Int)) : Bool :=
  let ws := istWindowStart nowIst
  let we := ws + 86400
  (readyRows.find? (rowInWindow ws we)).isSome

/-! ### Session invalidation and the restart handler -/

/-- The auth-row rewrite of
`UPDATE auth SET auth=NULL, feed_token=NULL, is_revoked=1`. -/
def revokeAuthRow (r : AuthRow) : AuthRow :=
  { r with auth := none, feed_token := none, is_revoked := 1 }

/-- An instance's databases as touched by `_invalidate_session`: the
`auth` table rows and the `master_contract_status` timestamps, `none`
when the table (or its database file) is not found. -/
structure InstanceDb where
  authRows : Option (List AuthRow)
  masterRows : Option (List Int)
deriving Repr, DecidableEq

/-- The result record built by `_invalidate_session`. -/
structure InvalidateResult where
  auth_updated : Bool
  auth_error : Option String
  master_deleted : Nat
  master_error : Option String
deriving Repr, DecidableEq

/-- `_invalidate_session`: revoke every auth row (clearing both tokens),
and delete every master-contract record whose timestamp lies in the
current operational window. -/
def invalidateSession (db : InstanceDb) (nowIst : Int) : InstanceDb × InvalidateResult :=
  let ws := istWindowStart nowIst
  let we := ws + 86400
  let authPart : Option (List AuthRow) × Bool × Option String :=
    match db.authRows with
    | some rows => (some (rows.map revokeAuthRow), true, none)
    | none => (none, false, some "Auth database not found")
  let masterPart : Option (List Int) × Nat × Option String :=
    match db.masterRows with
    | some rows =>
      (some (rows.filter (fun t => !decide (ws ≤ t ∧ t < we))),
       (rows.filter (fun t => decide (ws ≤ t ∧ t < we))).length, none)
    | none => (none, 0, some "Master contract table not found")
  (⟨authPart.1, masterPart.1⟩,
   ⟨authPart.2.1, authPart.2.2, masterPart.2.1, masterPart.2.2⟩)

/-- The externally visible side effects of `handle_restart_instance`, in
program order. -/
inductive Effect where
  | sessionInvalidated (res : InvalidateResult)
  | runShell (cmd : String)
deriving Repr, DecidableEq

/-- `handle_restart_instance`: invalidate the instance's session first,
then spawn `sudo systemctl restart <service>`. -/
def handleRestartInstance (db : InstanceDb) (nowIst : Int) (inst : String)
    (domain : Option String) : InstanceDb × List Effect :=
  let r := invalidateSession db nowIst
  (r.1, [.sessionInvalidated r.2, .runShell (restartCommand inst domain)])

/-! ### Concrete records used by witnesses and counterexamples -/

/-- A job already in a terminal state. -/
def demoTerminalJob : Job :=
  { id := "aaaabbbbcccc", action := "health-check", paramsScope := some "all",
    paramsInstance := none, status := "success",
    created_at := "2026-10-12 09:00:00", created_ts := 100,
    started_at := some "2026-10-12 09:00:01",
    finished_at := some "2026-10-12 09:00:05", exit_code := some 0,
    output := [], error := none }

/-- A freshly created (queued) job. -/
def demoQueuedJob : Job :=
  mkJob "jjjjkkkkllll" "health-check" (some "instance") (some "openalgo7")
    "2026-10-12 09:10:00" 50

/-- A second fresh job with a distinct identifier. -/
def demoQueuedJob2 : Job :=
  mkJob "mmmmnnnnoooo" "update" (some "all") none "2026-10-12 09:11:00" 60

/-- A captured output one character past the truncation cap. -/
def hugeRawOutput : List Char := List.replicate 200001 'a'

/-! ## Theorems -/

/-- C5: the readiness evaluator counts a stored record as inside the
operational window exactly when window-start ≤ timestamp < window-end
(half-open): the window-start instant is included, the window-end instant
excluded; the window start is today's date at the 03:00 IST cutover,
rolled back one day when now is before that hour (so the window always
contains now), and the window end is exactly 24 hours after the start. -/
theorem readinessWindow_halfOpen_containsNow (nowIst : Int) :
    (∀ dt : Int,
      rowInWindow (istWindowStart nowIst) (istWindowStart nowIst + 86400) (some dt) = true ↔
        istWindowStart nowIst ≤ dt ∧ dt < istWindowStart nowIst + 86400) ∧
    rowInWindow (istWindowStart nowIst) (istWindowStart nowIst + 86400)
      (some (istWindowStart nowIst)) = true ∧
    rowInWindow (istWindowStart nowIst) (istWindowStart nowIst + 86400)
      (some (istWindowStart nowIst + 86400)) = false ∧
    rowInWindow (istWindowStart nowIst) (istWindowStart nowIst + 86400) none = false ∧
    istWindowStart nowIst =
      (if nowIst < dayStartSec nowIst + CUTOVER_SEC
       then dayStartSec nowIst + CUTOVER_SEC - 86400
       else dayStartSec nowIst + CUTOVER_SEC) ∧
    istWindowStart nowIst ≤ nowIst ∧ nowIst < istWindowStart nowIst + 86400 ∧
    (∀ rows : List (Option Int),
      masterContractReady nowIst rows = true ↔
        ∃ dt : Int, some dt ∈ rows ∧
          istWindowStart nowIst ≤ dt ∧ dt < istWindowStart nowIst + 86400) := by
  have hcontains : istWindowStart nowIst ≤ nowIst ∧
      nowIst < istWindowStart nowIst + 86400 := by
    unfold istWindowStart dayStartSec CUTOVER_SEC
    dsimp only
    split <;> omega
  refine ⟨?_, ?_, ?_, ?_, rfl, hcontains.1, hcontains.2, ?_⟩
  · intro dt; simp [rowInWindow]
  · simp [rowInWindow]
  · simp [rowInWindow]
  · rfl
  · intro rows
    unfold masterContractReady
    rw [List.find?_isSome]
    constructor
    · rintro ⟨x, hx, hpx⟩
      cases x with
      | none => simp [rowInWindow] at hpx
      | some dt =>
        refine ⟨dt, hx, ?_⟩
        simpa [rowInWindow] using hpx
    · rintro ⟨dt, hmem, h1, h2⟩
      exact ⟨some dt, hmem, by simp [rowInWindow]; exact ⟨h1, h2⟩⟩

/-- Concrete instance of the C5 window boundaries. -/
theorem readinessWindow_halfOpen_containsNow_witness :
    rowInWindow (istWindowStart 100000) (istWindowStart 100000 + 86400)
      (some (istWindowStart 100000)) = true :=
  (readinessWindow_halfOpen_containsNow 100000).2.1

/-- C4: the auth classification is total and deterministic and follows
the fixed priority order of the specification (blank name, then revoked
with all three credential fields populated, then revoked, then blank
broker, then blank credential or feed credential, else authenticated);
the broker and display name of the row are always returned, and the
revoked-but-fully-populated row of end-to-end scenario 3 classifies as
invalid token with broker and name preserved. -/
theorem authClassification_priority (r : AuthRow)
    (hrev : r.is_revoked = 0 ∨ r.is_revoked = 1) :
    messageClass (readAuthStatus (.row r)).1 (readAuthStatus (.row r)).2.1
        = specAuthClassify (r.is_revoked == 1) (blankField r.auth)
            (blankField r.feed_token) (blankField r.broker) (blankField r.name) ∧
    (readAuthStatus (.row r)).2.2.1 = r.broker ∧
    (readAuthStatus (.row r)).2.2.2 = r.name ∧
    readAuthStatus (.row ⟨1, some "x", some "y", some "z", some "Bob"⟩)
        = (false, "Not Authenticated - Invalid Token", some "z", some "Bob") := by
  refine ⟨?_, ?_, ?_, by decide⟩ <;>
    rcases hrev with h | h <;>
    cases ha : blankField r.auth <;>
    cases hf : blankField r.feed_token <;>
    cases hb : blankField r.broker <;>
    cases hn : blankField r.name <;>
    simp [readAuthStatus, specAuthClassify, messageClass, ha, hf, hb, hn, h]

/-- Instance of C4 at the scenario-3 row. -/
theorem authClassification_priority_witness :
    readAuthStatus (.row ⟨1, some "x", some "y", some "z", some "Bob"⟩)
        = (false, "Not Authenticated - Invalid Token", some "z", some "Bob") :=
  (authClassification_priority ⟨1, some "x", some "y", some "z", some "Bob"⟩
    (Or.inr rfl)).2.2.2

/-- C7: every database-access failure shape observed by the auth state
reader yields a not-authenticated classification with a non-empty
descriptive reason (the embedding is a total function, so no exception
reaches the caller), and whenever a row is obtained its broker and
display name are returned unchanged, independent of the classification. -/
theorem authReader_degrades_on_failure (db : AuthDb) :
    (authDbFailure db = true →
      (readAuthStatus db).1 = false ∧ (readAuthStatus db).2.1 ≠ "") ∧
    (∀ r : AuthRow, db = .row r →
      (readAuthStatus db).2.2.1 = r.broker ∧ (readAuthStatus db).2.2.2 = r.name) := by
  cases db with
  | noDbFile => exact ⟨fun _ => ⟨rfl, by decide⟩, by rintro r ⟨⟩⟩
  | accessError m =>
    refine ⟨fun _ => ⟨rfl, ?_⟩, by rintro r ⟨⟩⟩
    obtain ⟨lm⟩ := m
    intro heq
    simp only [readAuthStatus] at heq
    have hd := congrArg String.data heq
    simp at hd
  | queryFailed => exact ⟨fun _ => ⟨rfl, by decide⟩, by rintro r ⟨⟩⟩
  | noRow => exact ⟨fun _ => ⟨rfl, by decide⟩, by rintro r ⟨⟩⟩
  | row r =>
    refine ⟨by simp [authDbFailure], ?_⟩
    rintro r2 hr
    cases hr
    cases ha : blankField r.auth <;> cases hf : blankField r.feed_token <;>
      cases hb : blankField r.broker <;> cases hn : blankField r.name <;>
      by_cases h1 : r.is_revoked = 1 <;>
      simp [readAuthStatus, ha, hf, hb, hn, h1, beq_iff_eq]

/-- Instance of C7 at a missing database file and at a concrete row. -/
theorem authReader_degrades_on_failure_witness :
    ((readAuthStatus .noDbFile).1 = false ∧ (readAuthStatus .noDbFile).2.1 ≠ "") ∧
    (readAuthStatus (.row ⟨0, none, none, some "zr", some "Amy"⟩)).2.2.1 = some "zr" :=
  ⟨(authReader_degrades_on_failure .noDbFile).1 rfl,
   ((authReader_degrades_on_failure (.row ⟨0, none, none, some "zr", some "Amy"⟩)).2
     ⟨0, none, none, some "zr", some "Amy"⟩ rfl).1⟩

/-- C1 (code bug): the POST body channel of `/api/restart-instance` (and
its stop, start and invalidate-session siblings) forwards a raw,
unsanitized instance string to the handler, which interpolates it into a
shell command and into the database directory path, even though
`_sanitize_instance` rejects that string and the monitor channels
(header, query parameter, host mapping) discard it. -/
theorem apiRestart_body_bypasses_sanitizer :
    apiRestartInstanceBody (some "../etc/passwd; reboot")
        = some "../etc/passwd; reboot" ∧
    sanitizeInstance (some "../etc/passwd; reboot") = none ∧
    restartCommand "../etc/passwd; reboot" none
        = "sudo systemctl restart ../etc/passwd; reboot" ∧
    instanceDbDir "../etc/passwd; reboot"
        = "/var/python/openalgo-flask/../etc/passwd; reboot/db" ∧
    resolveMonitorInstance (some "../etc/passwd; reboot")
        (some "../etc/passwd; reboot") (some "../etc/passwd; reboot") = none := by
  decide

/-- Partial updates do not change a record's identifier. -/
theorem applyUpdate_id (j : Job) (u : JobUpdate) : (applyUpdate j u).id = j.id := rfl

/-- Looking up a job after `_update_job` returns the partially updated
record. -/
theorem lookupJob_updateJob (reg : List Job) (jobId : String) (u : JobUpdate) :
    lookupJob (updateJob reg jobId u) jobId
      = (lookupJob reg jobId).map (fun j => applyUpdate j u) := by
  induction reg with
  | nil => rfl
  | cons e rest ih =>
    by_cases he : (e.id == jobId) = true
    · have h2 : ((applyUpdate e u).id == jobId) = true := by
        rw [applyUpdate_id]; exact he
      unfold lookupJob updateJob
      rw [List.map_cons, if_pos he,
        @List.find?_cons_of_pos _ (fun j => j.id == jobId) (applyUpdate e u) _ h2,
        @List.find?_cons_of_pos _ (fun j => j.id == jobId) e _ he]
      rfl
    · have heb : (e.id == jobId) = false := by simpa using he
      unfold lookupJob updateJob
      rw [List.map_cons, if_neg (by simp [heb]),
        @List.find?_cons_of_neg _ (fun j => j.id == jobId) e _ (by simp [heb]),
        @List.find?_cons_of_neg _ (fun j => j.id == jobId) e _ (by simp [heb])]
      exact ih

/-- C2 counterexample: `_update_job` on a job whose status is already
terminal (`success`) is neither rejected nor a no-op — it overwrites the
status, here back to `running`. -/
theorem updateJob_terminal_not_frozen :
    isTerminalStatus demoTerminalJob.status = true ∧
    (lookupJob (updateJob [demoTerminalJob] "aaaabbbbcccc" { status := some "running" })
        "aaaabbbbcccc").map Job.status = some "running" ∧
    updateJob [demoTerminalJob] "aaaabbbbcccc" { status := some "running" }
      ≠ [demoTerminalJob] := by
  refine ⟨rfl, rfl, ?_⟩
  intro h
  have := congrArg (fun l => (l.map Job.status)) h
  simp [updateJob, applyUpdate, demoTerminalJob] at this

/-- C2 amended: `_update_job` itself applies any update unconditionally,
but in the update sequence the job runner actually issues a job moves
`queued → running → terminal` and receives no further update, so its
status never transitions out of a terminal state in a run: the running
update writes `running`, the final update writes a terminal status, and
along that status trace a terminal status appears only at the last
position. -/
theorem runner_status_monotonic (reg : List Job) (jobId : String)
    (outcome : RunOutcome) (t1 t2 : String) (j : Job)
    (hfind : lookupJob reg jobId = some j) (hq : j.status = "queued") :
    (lookupJob (updateJob reg jobId (runningUpdate t1)) jobId).map Job.status
        = some "running" ∧
    (lookupJob (runScriptJob reg jobId outcome t1 t2) jobId).map Job.status
        = some (terminalStatusOf outcome) ∧
    isTerminalStatus (terminalStatusOf outcome) = true ∧
    (∀ i k : Fin 3, i ≤ k →
      isTerminalStatus ([j.status, "running", terminalStatusOf outcome].get i) = true →
      [j.status, "running", terminalStatusOf outcome].get k
        = [j.status, "running", terminalStatusOf outcome].get i) := by
  refine ⟨?_, ?_, ?_, ?_⟩
  · rw [lookupJob_updateJob, hfind]
    simp [applyUpdate, runningUpdate]
  · cases outcome with
    | completed rc out err =>
      simp only [runScriptJob, terminalStatusOf]
      rw [lookupJob_updateJob, lookupJob_updateJob, hfind]
      simp [applyUpdate]
    | timedOut out err =>
      simp only [runScriptJob, terminalStatusOf]
      rw [lookupJob_updateJob, lookupJob_updateJob, hfind]
      simp [applyUpdate]
    | failed msg =>
      simp only [runScriptJob, terminalStatusOf]
      rw [lookupJob_updateJob, lookupJob_updateJob, hfind]
      simp [applyUpdate]
  · cases outcome with
    | completed rc out err =>
      simp only [terminalStatusOf, isTerminalStatus]
      by_cases h0 : rc == 0 <;> simp [h0]
    | timedOut out err => rfl
    | failed msg => rfl
  · intro i k hik hterm
    have hqterm : isTerminalStatus "queued" = false := rfl
    have hrterm : isTerminalStatus "running" = false := rfl
    fin_cases i <;> fin_cases k <;> simp_all [hq]

/-- Instance of the amended C2 on a concrete queued job and timeout
outcome. -/
theorem runner_status_monotonic_witness :
    (lookupJob (runScriptJob [demoQueuedJob] "jjjjkkkkllll" (.timedOut [] [])
        "t1" "t2") "jjjjkkkkllll").map Job.status = some "timeout" :=
  (runner_status_monotonic [demoQueuedJob] "jjjjkkkkllll" (.timedOut [] [])
    "t1" "t2" demoQueuedJob (by decide) (by decide)).2.1

/-- C8: when the external command times out, the job reaches terminal
status `timeout` with the exit code left unset, the partial output
preserved after ANSI stripping (and whitespace trimming), and an error
message noting the timeout attached. -/
theorem timeout_terminal_state (reg : List Job) (jobId : String)
    (out err : List Char) (t1 t2 : String) (j : Job)
    (hfind : lookupJob reg jobId = some j) :
    ∃ j2, lookupJob (runScriptJob reg jobId (.timedOut out err) t1 t2) jobId = some j2 ∧
      j2.status = "timeout" ∧ j2.exit_code = none ∧
      j2.output = pyStrip (stripAnsi (combineOutput out err)) ∧
      j2.error = some "Command timed out" ∧ j2.finished_at = some t2 := by
  have hl : lookupJob (runScriptJob reg jobId (.timedOut out err) t1 t2) jobId
      = some (applyUpdate (applyUpdate j (runningUpdate t1))
          { status := some "timeout", exit_code := some none,
            output := some (pyStrip (stripAnsi (combineOutput out err))),
            error := some (some "Command timed out"),
            finished_at := some (some t2) }) := by
    simp only [runScriptJob]
    rw [lookupJob_updateJob, lookupJob_updateJob, hfind]
    rfl
  exact ⟨_, hl, rfl, rfl, rfl, rfl, rfl⟩

/-- Instance of C8 on a concrete registry with ANSI-colored partial
output. -/
theorem timeout_terminal_state_witness :
    ∃ j2, lookupJob (runScriptJob [demoQueuedJob] "jjjjkkkkllll"
        (.timedOut "partial \x1b[31mred".toList []) "t1" "t2") "jjjjkkkkllll" = some j2 ∧
      j2.status = "timeout" ∧ j2.exit_code = none ∧
      j2.output = pyStrip (stripAnsi (combineOutput "partial \x1b[31mred".toList [])) ∧
      j2.error = some "Command timed out" ∧ j2.finished_at = some "t2" :=
  timeout_terminal_state [demoQueuedJob] "jjjjkkkkllll"
    "partial \x1b[31mred".toList [] "t1" "t2" demoQueuedJob (by decide)

/-- Stripping whitespace never lengthens a string. -/
theorem pyStrip_length_le (l : List Char) : (pyStrip l).length ≤ l.length := by
  unfold pyStrip
  have h1 : (l.dropWhile isPySpace).length ≤ l.length :=
    (List.dropWhile_sublist _).length_le
  have h2 : ((l.dropWhile isPySpace).reverse.dropWhile isPySpace).length ≤
      (l.dropWhile isPySpace).reverse.length :=
    (List.dropWhile_sublist _).length_le
  simp only [List.length_reverse] at h2 ⊢
  omega

/-- The processed output of the normal-completion path never exceeds the
cap plus the marker length. -/
theorem capturedOutput_length_le (out err : List Char) :
    (capturedOutput out err).length ≤ OUTPUT_CAP + TRUNCATION_MARKER.length := by
  unfold capturedOutput
  dsimp only
  split
  · rw [List.length_append, List.length_take]
    omega
  · omega

/-- `pyStrip` is the identity on text that neither starts nor ends with
whitespace. -/
theorem pyStrip_eq_self_of_ends {l : List Char}
    (hh : ∀ c, l.head? = some c → isPySpace c = false)
    (hl : ∀ c, l.getLast? = some c → isPySpace c = false) :
    pyStrip l = l := by
  have h1 : l.dropWhile isPySpace = l := by
    cases l with
    | nil => rfl
    | cons c rest =>
      rw [List.dropWhile_cons, if_neg]
      simp [hh c rfl]
  rw [pyStrip, h1]
  have h2 : l.reverse.dropWhile isPySpace = l.reverse := by
    cases hr : l.reverse with
    | nil => rfl
    | cons c rest =>
      rw [List.dropWhile_cons, if_neg]
      have hc : l.getLast? = some c := by
        rw [← List.head?_reverse, hr]
        rfl
      simp [hl c hc]
  rw [h2, List.reverse_reverse]

/-- `stripAnsi` keeps any character other than ESC and moves on. -/
theorem stripAnsi_cons_of_ne (c : Char) (rest : List Char) (hc : c ≠ '\x1b') :
    stripAnsi (c :: rest) = c :: stripAnsi rest := by
  conv_lhs => rw [stripAnsi.eq_def]
  split
  · rename_i heq
    simp at heq
  · rename_i heq
    rw [List.cons.injEq] at heq
    exact absurd heq.1 hc
  · rename_i heq
    rw [List.cons.injEq] at heq
    rw [heq.1, heq.2]

/-- `stripAnsi` is the identity on a run of the letter a. -/
theorem stripAnsi_replicate_a (n : Nat) :
    stripAnsi (List.replicate n 'a') = List.replicate n 'a' := by
  induction n with
  | zero =>
    rw [List.replicate_zero]
    rw [stripAnsi]
  | succ m ih =>
    rw [List.replicate_succ, stripAnsi_cons_of_ne 'a' _ (by decide), ih]

/-- On normal completion, the record stored for the job carries exactly
the processed output `pyStrip (capturedOutput out err)`. -/
theorem completed_stored_output (reg : List Job) (jobId : String) (rc : Int)
    (out err : List Char) (t1 t2 : String) (j : Job)
    (hfind : lookupJob reg jobId = some j) :
    ∃ j2, lookupJob (runScriptJob reg jobId (.completed rc out err) t1 t2) jobId
        = some j2 ∧ j2.output = pyStrip (capturedOutput out err) := by
  have hl : lookupJob (runScriptJob reg jobId (.completed rc out err) t1 t2) jobId
      = some (applyUpdate (applyUpdate j (runningUpdate t1))
          { status := some (if rc == 0 then "success" else "error"),
            exit_code := some (some rc),
            output := some (pyStrip (capturedOutput out err)),
            finished_at := some (some t2) }) := by
    simp only [runScriptJob]
    rw [lookupJob_updateJob, lookupJob_updateJob, hfind]
    rfl
  exact ⟨_, hl, rfl⟩

/-- C6 amended: on normal completion the stored output is the
ANSI-stripped text, truncated to `OUTPUT_CAP` characters with the
23-character truncation marker appended when the stripped text exceeded
the cap, then whitespace-trimmed, so its length never exceeds
`OUTPUT_CAP` plus the marker length (200,023); when the stripped text is
within the cap it is stored without a marker; output captured on the
timeout path is stored ANSI-stripped and trimmed without truncation. -/
theorem output_cap_with_marker (reg : List Job) (jobId : String)
    (rc : Int) (out err : List Char) (t1 t2 : String) (j : Job)
    (hfind : lookupJob reg jobId = some j) :
    (∃ j2, lookupJob (runScriptJob reg jobId (.completed rc out err) t1 t2) jobId
        = some j2 ∧
      j2.output = pyStrip (capturedOutput out err) ∧
      j2.output.length ≤ OUTPUT_CAP + TRUNCATION_MARKER.length ∧
      ((stripAnsi (combineOutput out err)).length ≤ OUTPUT_CAP →
        j2.output = pyStrip (stripAnsi (combineOutput out err)))) ∧
    (∃ j3, lookupJob (runScriptJob reg jobId (.timedOut out err) t1 t2) jobId
        = some j3 ∧
      j3.output = pyStrip (stripAnsi (combineOutput out err))) := by
  constructor
  · have hl : lookupJob (runScriptJob reg jobId (.completed rc out err) t1 t2) jobId
        = some (applyUpdate (applyUpdate j (runningUpdate t1))
            { status := some (if rc == 0 then "success" else "error"),
              exit_code := some (some rc),
              output := some (pyStrip (capturedOutput out err)),
              finished_at := some (some t2) }) := by
      simp only [runScriptJob]
      rw [lookupJob_updateJob, lookupJob_updateJob, hfind]
      rfl
    refine ⟨_, hl, rfl, ?_, ?_⟩
    · exact Nat.le_trans (pyStrip_length_le _) (capturedOutput_length_le out err)
    · intro hle
      have : capturedOutput out err = stripAnsi (combineOutput out err) := by
        unfold capturedOutput
        dsimp only
        rw [if_neg]
        omega
      rw [this]
      rfl
  · have hl : lookupJob (runScriptJob reg jobId (.timedOut out err) t1 t2) jobId
        = some (applyUpdate (applyUpdate j (runningUpdate t1))
            { status := some "timeout", exit_code := some none,
              output := some (pyStrip (stripAnsi (combineOutput out err))),
              error := some (some "Command timed out"),
              finished_at := some (some t2) }) := by
      simp only [runScriptJob]
      rw [lookupJob_updateJob, lookupJob_updateJob, hfind]
      rfl
    exact ⟨_, hl, rfl⟩

/-- Instance of the amended C6 on a concrete registry. -/
theorem output_cap_with_marker_witness :
    ∃ j2, lookupJob (runScriptJob [demoQueuedJob] "jjjjkkkkllll"
        (.completed 0 "ok".toList []) "t1" "t2") "jjjjkkkkllll" = some j2 ∧
      j2.output = pyStrip (capturedOutput "ok".toList []) ∧
      j2.output.length ≤ OUTPUT_CAP + TRUNCATION_MARKER.length ∧
      ((stripAnsi (combineOutput "ok".toList [])).length ≤ OUTPUT_CAP →
        j2.output = pyStrip (stripAnsi (combineOutput "ok".toList []))) :=
  (output_cap_with_marker [demoQueuedJob] "jjjjkkkkllll" 0 "ok".toList []
    "t1" "t2" demoQueuedJob (by decide)).1

/-- C6 counterexample: a 200,001-character command output is stored with
length 200,023 — the marker is appended on top of the 200,000-character
cap, so the stored output exceeds the stated fixed cap. -/
theorem output_cap_exceeded :
    ∃ j2, lookupJob (runScriptJob [demoQueuedJob] "jjjjkkkkllll"
        (.completed 0 hugeRawOutput []) "t1" "t2") "jjjjkkkkllll" = some j2 ∧
      j2.output.length = OUTPUT_CAP + 23 ∧ OUTPUT_CAP < j2.output.length := by
  have hcomb : combineOutput hugeRawOutput [] = hugeRawOutput := by
    simp [combineOutput]
  have hstrip : stripAnsi hugeRawOutput = hugeRawOutput := by
    unfold hugeRawOutput
    exact stripAnsi_replicate_a 200001
  have hcond : OUTPUT_CAP < hugeRawOutput.length := by
    unfold hugeRawOutput OUTPUT_CAP
    rw [List.length_replicate]
    omega
  have hmin : OUTPUT_CAP ⊓ 200001 = 200000 := by
    unfold OUTPUT_CAP
    omega
  have hcap : capturedOutput hugeRawOutput []
      = List.replicate 200000 'a' ++ TRUNCATION_MARKER := by
    unfold capturedOutput
    dsimp only
    rw [hcomb, hstrip, if_pos hcond]
    unfold hugeRawOutput
    rw [List.take_replicate, hmin]
  have hmarker : TRUNCATION_MARKER.getLast? = some ')' := by decide
  have hps : pyStrip (List.replicate 200000 'a' ++ TRUNCATION_MARKER)
      = List.replicate 200000 'a' ++ TRUNCATION_MARKER := by
    apply pyStrip_eq_self_of_ends
    · intro c hc
      have h200 : (200000 : Nat) = 199999 + 1 := by norm_num
      rw [h200, List.replicate_succ, List.cons_append, List.head?_cons,
        Option.some.injEq] at hc
      rw [← hc]
      decide
    · intro c hc
      rw [List.getLast?_append_of_ne_nil _ (by decide), hmarker,
        Option.some.injEq] at hc
      rw [← hc]
      decide
  have hlen : (pyStrip (capturedOutput hugeRawOutput [])).length = OUTPUT_CAP + 23 := by
    rw [hcap, hps, List.length_append, List.length_replicate]
    decide
  obtain ⟨j2, hj, hout⟩ := completed_stored_output [demoQueuedJob] "jjjjkkkkllll"
    0 hugeRawOutput [] "t1" "t2" demoQueuedJob (by decide)
  refine ⟨j2, hj, ?_, ?_⟩
  · rw [hout]
    exact hlen
  · rw [hout, hlen]
    omega

/-- `_prune_jobs_locked` leaves a registry within capacity unchanged. -/
theorem pruneJobsLocked_of_le (reg : List Job) (h : reg.length ≤ JOB_LIMIT) :
    pruneJobsLocked reg = reg := by
  unfold pruneJobsLocked
  rw [if_pos h]

/-- Pruning never invents records. -/
theorem pruneJobsLocked_sublist (reg : List Job) : pruneJobsLocked reg <+ reg := by
  unfold pruneJobsLocked
  split
  · exact List.Sublist.refl reg
  · exact List.filter_sublist reg

/-- Filtering out the ids of the first `k` elements of a permutation of
the list leaves (a permutation of) the remaining elements, when ids are
duplicate-free. -/
theorem filter_take_ids_perm_drop (s l : List Job) (hperm : s ~ l)
    (hn : (s.map Job.id).Nodup) (k : Nat) :
    l.filter (fun j => !((s.take k).any (fun e => e.id == j.id))) ~ s.drop k := by
  have hfp : l.filter (fun j => !((s.take k).any (fun e => e.id == j.id)))
      ~ s.filter (fun j => !((s.take k).any (fun e => e.id == j.id))) :=
    (hperm.filter _).symm
  have hs : s.take k ++ s.drop k = s := List.take_append_drop k s
  have hnod2 : ((s.take k ++ s.drop k).map Job.id).Nodup := by rw [hs]; exact hn
  rw [List.map_append, List.nodup_append] at hnod2
  have hev : (s.take k).filter (fun j => !((s.take k).any (fun e => e.id == j.id)))
      = [] := by
    rw [List.filter_eq_nil_iff]
    intro e he
    have hany : (s.take k).any (fun x => x.id == e.id) = true :=
      List.any_eq_true.mpr ⟨e, he, by simp⟩
    simp [hany]
  have hkp : (s.drop k).filter (fun j => !((s.take k).any (fun e => e.id == j.id)))
      = s.drop k := by
    rw [List.filter_eq_self]
    intro b hb
    have : ¬ (s.take k).any (fun e => e.id == b.id) = true := by
      intro hany
      rw [List.any_eq_true] at hany
      obtain ⟨e, he, heq⟩ := hany
      have heq2 : e.id = b.id := by simpa using heq
      exact hnod2.2.2 (List.mem_map_of_mem Job.id he)
        (heq2 ▸ List.mem_map_of_mem Job.id hb)
    simp [this]
  have hfe : (s.take k).filter (fun j => !((s.take k).any (fun e => e.id == j.id)))
        ++ (s.drop k).filter (fun j => !((s.take k).any (fun e => e.id == j.id)))
      = s.filter (fun j => !((s.take k).any (fun e => e.id == j.id))) := by
    rw [← List.filter_append, hs]
  calc l.filter (fun j => !((s.take k).any (fun e => e.id == j.id)))
      ~ s.filter (fun j => !((s.take k).any (fun e => e.id == j.id))) := hfp
    _ = s.drop k := by
        rw [← hfe, hev, hkp, List.nil_append]

/-- For an over-capacity registry with duplicate-free ids, pruning keeps
exactly the newest `JOB_LIMIT` records (a permutation of the sorted
list's tail). -/
theorem pruneJobsLocked_perm_drop (reg : List Job)
    (hn : (reg.map Job.id).Nodup) (hlen : ¬ reg.length ≤ JOB_LIMIT) :
    pruneJobsLocked reg
      ~ (List.insertionSort jobLE reg).drop (reg.length - JOB_LIMIT) := by
  unfold pruneJobsLocked
  rw [if_neg hlen]
  have hperm : List.insertionSort jobLE reg ~ reg := List.perm_insertionSort jobLE reg
  have hn2 : ((List.insertionSort jobLE reg).map Job.id).Nodup :=
    ((hperm.map Job.id).nodup_iff).mpr hn
  exact filter_take_ids_perm_drop (List.insertionSort jobLE reg) reg hperm hn2
    (reg.length - JOB_LIMIT)

/-- After pruning, the registry holds `min (previous size) JOB_LIMIT`
records. -/
theorem pruneJobsLocked_length (reg : List Job) (hn : (reg.map Job.id).Nodup) :
    (pruneJobsLocked reg).length = min reg.length JOB_LIMIT := by
  by_cases h : reg.length ≤ JOB_LIMIT
  · rw [pruneJobsLocked_of_le reg h, Nat.min_eq_left h]
  · have hp := (pruneJobsLocked_perm_drop reg hn h).length_eq
    rw [hp, List.length_drop, List.length_insertionSort]
    omega

/-- Pruning preserves duplicate-freeness of ids. -/
theorem pruneJobsLocked_nodup (reg : List Job) (hn : (reg.map Job.id).Nodup) :
    ((pruneJobsLocked reg).map Job.id).Nodup :=
  hn.sublist ((pruneJobsLocked_sublist reg).map Job.id)

/-- Every record evicted by pruning is at least as old (by creation
stamp) as every record kept. -/
theorem pruneJobsLocked_evicts_oldest (reg : List Job)
    (hn : (reg.map Job.id).Nodup) :
    ∀ e ∈ reg, e ∉ pruneJobsLocked reg →
      ∀ r ∈ pruneJobsLocked reg, e.created_ts ≤ r.created_ts := by
  intro e he hne r hr
  by_cases h : reg.length ≤ JOB_LIMIT
  · rw [pruneJobsLocked_of_le reg h] at hne
    exact absurd he hne
  · have hkept := pruneJobsLocked_perm_drop reg hn h
    have hsorted : List.Sorted jobLE (List.insertionSort jobLE reg) :=
      List.sorted_insertionSort jobLE reg
    have hmem : e ∈ List.insertionSort jobLE reg :=
      (List.mem_insertionSort jobLE).mpr he
    have hsplitmem := hmem
    rw [← List.take_append_drop (reg.length - JOB_LIMIT)
      (List.insertionSort jobLE reg), List.mem_append] at hsplitmem
    have hrk : r ∈ (List.insertionSort jobLE reg).drop (reg.length - JOB_LIMIT) :=
      hkept.mem_iff.mp hr
    rcases hsplitmem with hetake | hedrop
    · have hpw := hsorted
      rw [List.Sorted, ← List.take_append_drop (reg.length - JOB_LIMIT)
        (List.insertionSort jobLE reg), List.pairwise_append] at hpw
      exact hpw.2.2 e hetake r hrk
    · exact absurd (hkept.mem_iff.mpr hedrop) hne

/-- Inserting a fresh id is a plain append (no record is replaced). -/
theorem dictInsert_of_fresh (reg : List Job) (j : Job)
    (h : ∀ e ∈ reg, e.id ≠ j.id) : dictInsert reg j = reg ++ [j] := by
  unfold dictInsert
  rw [if_neg]
  intro hany
  rw [List.any_eq_true] at hany
  obtain ⟨e, he, heq⟩ := hany
  exact h e he (by simpa using heq)

/-- One step of `applyCreations`. -/
theorem applyCreations_take_succ (seq : List Job) (i : Nat) (hi : i < seq.length) :
    applyCreations (seq.take (i + 1))
      = pruneJobsLocked (dictInsert (applyCreations (seq.take i)) (seq.get ⟨i, hi⟩)) := by
  unfold applyCreations
  rw [List.take_succ, List.getElem?_eq_getElem hi]
  rw [List.foldl_append]
  simp [List.get_eq_getElem]

/-- Invariant of a creation sequence with duplicate-free generated ids:
after any prefix, the registry is within capacity, its ids are
duplicate-free, and every id it holds was generated by that prefix. -/
theorem applyCreations_invariant (seq : List Job)
    (hids : (seq.map Job.id).Nodup) (i : Nat) :
    (applyCreations (seq.take i)).length ≤ JOB_LIMIT ∧
    ((applyCreations (seq.take i)).map Job.id).Nodup ∧
    ∀ x ∈ (applyCreations (seq.take i)).map Job.id, x ∈ (seq.take i).map Job.id := by
  induction i with
  | zero => simp [applyCreations]
  | succ n ih =>
    by_cases hn2 : n < seq.length
    · obtain ⟨ihlen, ihnod, ihsub⟩ := ih
      have hidsplit : (seq.map Job.id).take n ++ (seq.map Job.id).drop n
          = seq.map Job.id := List.take_append_drop n (seq.map Job.id)
      have hnd := hids
      rw [← hidsplit, List.nodup_append] at hnd
      have hlen2 : n < (seq.map Job.id).length := by
        rw [List.length_map]; exact hn2
      have hjdrop : (seq.get ⟨n, hn2⟩).id ∈ (seq.map Job.id).drop n := by
        rw [List.drop_eq_getElem_cons hlen2]
        have : (seq.map Job.id)[n] = (seq.get ⟨n, hn2⟩).id := by
          simp [List.get_eq_getElem]
        rw [this]
        exact List.mem_cons_self _ _
      have hjid : (seq.get ⟨n, hn2⟩).id ∉ (seq.take n).map Job.id := by
        rw [List.map_take]
        intro hmem
        exact hnd.2.2 hmem hjdrop
      have hfresh : ∀ e ∈ applyCreations (seq.take n),
          e.id ≠ (seq.get ⟨n, hn2⟩).id := by
        intro e he heq
        exact hjid (heq ▸ ihsub _ (List.mem_map_of_mem Job.id he))
      have hins : dictInsert (applyCreations (seq.take n)) (seq.get ⟨n, hn2⟩)
          = applyCreations (seq.take n) ++ [seq.get ⟨n, hn2⟩] :=
        dictInsert_of_fresh _ _ hfresh
      have hnodins : ((applyCreations (seq.take n)
          ++ [seq.get ⟨n, hn2⟩]).map Job.id).Nodup := by
        rw [List.map_append, List.nodup_append]
        refine ⟨ihnod, List.nodup_singleton _, ?_⟩
        intro x hx hx2
        rw [List.map_singleton, List.mem_singleton] at hx2
        obtain ⟨e, he, heq⟩ := List.mem_map.mp hx
        exact hfresh e he (heq.trans hx2)
      rw [applyCreations_take_succ seq n hn2, hins]
      refine ⟨?_, ?_, ?_⟩
      · rw [pruneJobsLocked_length _ hnodins]
        exact min_le_right _ _
      · exact pruneJobsLocked_nodup _ hnodins
      · intro x hx
        have hsub2 : x ∈ (applyCreations (seq.take n)
            ++ [seq.get ⟨n, hn2⟩]).map Job.id := by
          obtain ⟨e, he, heq⟩ := List.mem_map.mp hx
          have he2 : e ∈ applyCreations (seq.take n) ++ [seq.get ⟨n, hn2⟩] :=
            (pruneJobsLocked_sublist _).subset he
          exact heq ▸ List.mem_map_of_mem Job.id he2
        have htk : (seq.take (n + 1)).map Job.id
            = (seq.take n).map Job.id ++ [(seq.get ⟨n, hn2⟩).id] := by
          rw [List.take_succ, List.getElem?_eq_getElem hn2, List.map_append]
          congr 1
        rw [htk, List.mem_append]
        rw [List.map_append, List.map_singleton, List.mem_append] at hsub2
        rcases hsub2 with h | h
        · exact Or.inl (ihsub x h)
        · exact Or.inr h
    · have heq2 : seq.take (n + 1) = seq.take n := by
        rw [List.take_of_length_le (by omega), List.take_of_length_le (by omega)]
      rw [heq2]
      exact ih

/-- Along a creation sequence with duplicate-free generated ids, the id
generated at step `i` is fresh for the registry built by the first `i`
steps. -/
theorem applyCreations_fresh (seq : List Job) (hids : (seq.map Job.id).Nodup)
    (i : Nat) (hi : i < seq.length) :
    ∀ e ∈ applyCreations (seq.take i), e.id ≠ (seq.get ⟨i, hi⟩).id := by
  intro e he heq
  have ihsub := (applyCreations_invariant seq hids i).2.2
  have hidsplit : (seq.map Job.id).take i ++ (seq.map Job.id).drop i
      = seq.map Job.id := List.take_append_drop i (seq.map Job.id)
  have hnd := hids
  rw [← hidsplit, List.nodup_append] at hnd
  have hlen2 : i < (seq.map Job.id).length := by
    rw [List.length_map]; exact hi
  have hjdrop : (seq.get ⟨i, hi⟩).id ∈ (seq.map Job.id).drop i := by
    rw [List.drop_eq_getElem_cons hlen2]
    have hg : (seq.map Job.id)[i] = (seq.get ⟨i, hi⟩).id := by
      simp [List.get_eq_getElem]
    rw [hg]
    exact List.mem_cons_self _ _
  have hmem : (seq.get ⟨i, hi⟩).id ∈ (seq.map Job.id).take i := by
    rw [← List.map_take]
    exact heq ▸ ihsub _ (List.mem_map_of_mem Job.id he)
  exact hnd.2.2 hmem hjdrop

/-- The registry ids stay duplicate-free through the insertion performed
at step `i`. -/
theorem applyCreations_step_nodup (seq : List Job)
    (hids : (seq.map Job.id).Nodup) (i : Nat) (hi : i < seq.length) :
    ((dictInsert (applyCreations (seq.take i)) (seq.get ⟨i, hi⟩)).map Job.id).Nodup := by
  rw [dictInsert_of_fresh _ _ (applyCreations_fresh seq hids i hi),
    List.map_append, List.nodup_append]
  refine ⟨(applyCreations_invariant seq hids i).2.1, List.nodup_singleton _, ?_⟩
  intro x hx hx2
  rw [List.map_singleton, List.mem_singleton] at hx2
  obtain ⟨e, he, heq⟩ := List.mem_map.mp hx
  exact applyCreations_fresh seq hids i hi e he (heq.trans hx2)

/-- C3: for every sequence of job creations (with the generated ids
pairwise distinct, as dict keys are), the registry holds at most
`JOB_LIMIT` (50) records immediately after each insertion completes, and
every record evicted by the pruning step has a creation stamp no newer
than every record kept. -/
theorem registry_capacity_and_eviction (seq : List Job)
    (hids : (seq.map Job.id).Nodup) :
    (∀ i, (applyCreations (seq.take i)).length ≤ JOB_LIMIT) ∧
    (∀ i, ∀ hi : i < seq.length,
      ∀ e ∈ dictInsert (applyCreations (seq.take i)) (seq.get ⟨i, hi⟩),
        e ∉ applyCreations (seq.take (i + 1)) →
        ∀ r ∈ applyCreations (seq.take (i + 1)), e.created_ts ≤ r.created_ts) := by
  constructor
  · intro i
    exact (applyCreations_invariant seq hids i).1
  · intro i hi e he hne r hr
    rw [applyCreations_take_succ seq i hi] at hne hr
    exact pruneJobsLocked_evicts_oldest _
      (applyCreations_step_nodup seq hids i hi) e he hne r hr

/-- Instance of C3 after two concrete creations. -/
theorem registry_capacity_and_eviction_witness :
    (applyCreations ([demoQueuedJob, demoQueuedJob2].take 2)).length ≤ JOB_LIMIT :=
  (registry_capacity_and_eviction [demoQueuedJob, demoQueuedJob2] (by decide)).1 2

/-- C9 amended: the registry performs no collision check, so a repeated
generated identifier silently replaces the existing record; whenever the
generated identifiers of a creation sequence are pairwise distinct (the
intended reading, and the overwhelmingly likely behaviour of
`uuid4().hex[:12]`), each insertion appends a brand-new record, replaces
nothing, and every record present before the insertion is still present
immediately after it. -/
theorem createJob_fresh_id_appends (seq : List Job)
    (hids : (seq.map Job.id).Nodup) :
    ∀ i, ∀ hi : i < seq.length,
      (seq.get ⟨i, hi⟩).id ∉ (applyCreations (seq.take i)).map Job.id ∧
      dictInsert (applyCreations (seq.take i)) (seq.get ⟨i, hi⟩)
        = applyCreations (seq.take i) ++ [seq.get ⟨i, hi⟩] ∧
      ∀ e ∈ applyCreations (seq.take i),
        e ∈ dictInsert (applyCreations (seq.take i)) (seq.get ⟨i, hi⟩) := by
  intro i hi
  have hfresh := applyCreations_fresh seq hids i hi
  have hins := dictInsert_of_fresh _ _ hfresh
  refine ⟨?_, hins, ?_⟩
  · intro hmem
    obtain ⟨e, he, heq⟩ := List.mem_map.mp hmem
    exact hfresh e he heq
  · intro e he
    rw [hins]
    exact List.mem_append_left _ he

/-- Instance of the amended C9 at the first step of a concrete
sequence. -/
theorem createJob_fresh_id_appends_witness :
    dictInsert (applyCreations ([demoQueuedJob].take 0))
        ([demoQueuedJob].get ⟨0, by norm_num⟩)
      = applyCreations ([demoQueuedJob].take 0)
        ++ [[demoQueuedJob].get ⟨0, by norm_num⟩] :=
  (createJob_fresh_id_appends [demoQueuedJob] (by decide) 0 (by norm_num)).2.1

/-- C9 counterexample: `_create_job` with a generated identifier equal to
one already in the registry overwrites that record (dict assignment): the
registry size stays 1 and the original health-check job is gone. -/
theorem createJob_duplicate_id_replaces :
    (createJob [] "cafecafecafe" "health-check" (some "all") none "t0" 10).2.length = 1 ∧
    mkJob "cafecafecafe" "health-check" (some "all") none "t0" 10
      ∈ (createJob [] "cafecafecafe" "health-check" (some "all") none "t0" 10).2 ∧
    (createJob (createJob [] "cafecafecafe" "health-check" (some "all") none "t0" 10).2
        "cafecafecafe" "update" (some "all") none "t1" 20).2.length = 1 ∧
    mkJob "cafecafecafe" "health-check" (some "all") none "t0" 10
      ∉ (createJob (createJob [] "cafecafecafe" "health-check" (some "all") none "t0" 10).2
        "cafecafecafe" "update" (some "all") none "t1" 20).2 := by
  decide

/-- C10: handling a restart-instance request first invalidates the
instance's session and only then triggers the service restart: the
effect list places the session invalidation before the shell restart
command; the invalidation sets the revoked flag to 1 and clears the
credential and feed-token fields on every auth row, and deletes every
master-contract record whose timestamp falls in the current operational
window — on every restart request, not only on explicit
session-invalidation requests. -/
theorem restart_invalidates_session_first (db : InstanceDb) (nowIst : Int)
    (inst : String) (domain : Option String) :
    (handleRestartInstance db nowIst inst domain).2
      = [Effect.sessionInvalidated (invalidateSession db nowIst).2,
         Effect.runShell (restartCommand inst domain)] ∧
    (handleRestartInstance db nowIst inst domain).1
      = (invalidateSession db nowIst).1 ∧
    (∀ rows, db.authRows = some rows →
      (invalidateSession db nowIst).1.authRows = some (rows.map revokeAuthRow) ∧
      ∀ r ∈ rows.map revokeAuthRow,
        r.is_revoked = 1 ∧ r.auth = none ∧ r.feed_token = none) ∧
    (∀ ts, db.masterRows = some ts →
      (invalidateSession db nowIst).1.masterRows
        = some (ts.filter (fun t =>
            !decide (istWindowStart nowIst ≤ t ∧ t < istWindowStart nowIst + 86400))) ∧
      ∀ t ∈ (invalidateSession db nowIst).1.masterRows.getD [],
        ¬(istWindowStart nowIst ≤ t ∧ t < istWindowStart nowIst + 86400)) := by
  refine ⟨rfl, rfl, ?_, ?_⟩
  · intro rows hrows
    constructor
    · simp [invalidateSession, hrows]
    · intro r hr
      obtain ⟨r0, _, heq⟩ := List.mem_map.mp hr
      rw [← heq]
      exact ⟨rfl, rfl, rfl⟩
  · intro ts hts
    have hmr : (invalidateSession db nowIst).1.masterRows
        = some (ts.filter (fun t =>
            !decide (istWindowStart nowIst ≤ t ∧ t < istWindowStart nowIst + 86400))) := by
      simp [invalidateSession, hts]
    refine ⟨hmr, ?_⟩
    intro t ht
    rw [hmr] at ht
    simp only [Option.getD_some] at ht
    have h2 := (List.mem_filter.mp ht).2
    simp at h2
    omega

/-- Instance of C10 on a concrete database with one auth row and two
master-contract records, one inside and one outside the window. -/
theorem restart_invalidates_session_first_witness :
    (handleRestartInstance
        ⟨some [⟨0, some "tok", some "feed", some "zr", some "Amy"⟩],
         some [istWindowStart 100000, istWindowStart 100000 - 1]⟩
        100000 "openalgo7" none).2
      = [Effect.sessionInvalidated
          (invalidateSession
            ⟨some [⟨0, some "tok", some "feed", some "zr", some "Amy"⟩],
             some [istWindowStart 100000, istWindowStart 100000 - 1]⟩ 100000).2,
         Effect.runShell (restartCommand "openalgo7" none)] ∧
    (invalidateSession
        ⟨some [⟨0, some "tok", some "feed", some "zr", some "Amy"⟩],
         some [istWindowStart 100000, istWindowStart 100000 - 1]⟩ 100000).1.authRows
      = some [⟨1, none, none, some "zr", some "Amy"⟩] := by
  constructor
  · exact (restart_invalidates_session_first
      ⟨some [⟨0, some "tok", some "feed", some "zr", some "Amy"⟩],
       some [istWindowStart 100000, istWindowStart 100000 - 1]⟩
      100000 "openalgo7" none).1
  · have h := ((restart_invalidates_session_first
      ⟨some [⟨0, some "tok", some "feed", some "zr", some "Amy"⟩],
       some [istWindowStart 100000, istWindowStart 100000 - 1]⟩
      100000 "openalgo7" none).2.2.1
        [⟨0, some "tok", some "feed", some "zr", some "Amy"⟩] rfl).1
    rw [h]
    rfl

end OpenAlgo
